import Mathlib

/-!
Verification development for the static file serving module
(yubiauth/util/static.py): the file responder FileApp, the byte range
iterator FileIter.app_iter_range and the directory responder DirectoryApp.

Python strings are modelled as lists of characters, file bytes as natural
numbers, and the filesystem as an explicit record of query functions.
-/

/-- Python strings (paths, methods, diagnostic messages) are modelled as
lists of characters. -/
abbrev PyStr := List Char

/-- Embeds a Lean string literal into the PyStr model. -/
def pstr (s : String) : PyStr := s.data

/-- An open file object: the full byte content of the file, the current
read position, and whether close() has been called. -/
structure Handle where
  content : List Nat
  pos : Nat
  closed : Bool
deriving DecidableEq

/-- Models Python file.read(n) on a binary file: a negative size reads to
end of file, a non-negative size reads at most n bytes from the current
position; the position advances by the number of bytes actually read. -/
def Handle.read (h : Handle) (n : Int) : List Nat × Handle :=
  let data := if n < 0 then h.content.drop h.pos else (h.content.drop h.pos).take n.toNat
  (data, ⟨h.content, h.pos + data.length, h.closed⟩)

/-- Models file.seek(s) for a non-negative offset s. -/
def Handle.seekTo (h : Handle) (s : Int) : Handle := ⟨h.content, s.toNat, h.closed⟩

/-- Models file.close(). -/
def Handle.close (h : Handle) : Handle := ⟨h.content, h.pos, true⟩

/-- The size requested by one read of the loop in app_iter_range:
min(block_size, limit) if limit is not None else block_size. -/
def readSize (limit : Option Int) (block_size : Int) : Int :=
  match limit with
  | some l => min block_size l
  | none => block_size

/-- The while loop of FileIter.app_iter_range: read a block, stop on an
empty read, otherwise yield the block, decrement the limit when bounded and
stop once it is non-positive.  Every exit path closes the file, mirroring
the try/finally in the source. -/
def readLoop (h : Handle) (limit : Option Int) (block_size : Int) :
    List (List Nat) × Handle :=
  let r := h.read (readSize limit block_size)
  if hr : r.1 = [] then ([], r.2.close)
  else
    match limit with
    | none =>
        let rest := readLoop r.2 none block_size
        (r.1 :: rest.1, rest.2)
    | some l =>
        if l - (r.1.length : Int) ≤ 0 then ([r.1], r.2.close)
        else
          let rest := readLoop r.2 (some (l - (r.1.length : Int))) block_size
          (r.1 :: rest.1, rest.2)
termination_by h.content.length - h.pos
decreasing_by
all_goals
  have hd : h.content.drop h.pos ≠ [] := by
    intro h0
    apply hr
    show (if readSize limit block_size < 0 then h.content.drop h.pos
          else (h.content.drop h.pos).take (readSize limit block_size).toNat) = []
    rw [h0]
    simp
  have hp : h.pos < h.content.length := by
    by_contra hle
    exact hd (List.drop_eq_nil_of_le (by omega))
  have hlen : 0 < (Handle.read h (readSize limit block_size)).1.length :=
    List.length_pos.mpr hr
  have hcontent : (Handle.read h (readSize limit block_size)).2.content = h.content := rfl
  have hpos : (Handle.read h (readSize limit block_size)).2.pos
      = h.pos + (Handle.read h (readSize limit block_size)).1.length := rfl
  simp only [hcontent, hpos]
  omega

/-- FileIter.app_iter_range: if seek is truthy (set and non-zero) the file
is repositioned and, when limit is set, limit is reduced by seek; then the
read loop runs.  Returns the yielded chunks together with the final state
of the file handle. -/
def app_iter_range (h : Handle) (seek limit : Option Int) (block_size : Int) :
    List (List Nat) × Handle :=
  match seek with
  | some s =>
      if s ≠ 0 then
        readLoop (h.seekTo s)
          (match limit with
           | some l => some (l - s)
           | none => none) block_size
      else
        readLoop h limit block_size
  | none => readLoop h limit block_size

/-- FileIter.__iter__ is app_iter_range with all defaults
(seek=None, limit=None, block_size=1<<16). -/
def fileIterAll (h : Handle) : List (List Nat) × Handle :=
  app_iter_range h none none 65536

/-- Modelled from the spec: the read loop of the byte range iterator, as a
fuel indexed function (the spec describes an unbounded loop; the fuel makes
it a total Lean function, and running out of fuel returns none).  Each
iteration reads min(block_size, limit) bytes when limit is set and
block_size bytes otherwise, terminates on an empty read, otherwise yields
the chunk, decrements limit by the chunk length when bounded and terminates
once limit is at most 0; the file is closed on termination. -/
def specLoopF : Nat → Option Int → Int → Handle → Option (List (List Nat) × Handle)
  | 0, _, _, _ => none
  | fuel + 1, limit, bs, h =>
      let r := h.read (readSize limit bs)
      if r.1 = [] then some ([], r.2.close)
      else
        match limit with
        | none =>
            match specLoopF fuel none bs r.2 with
            | none => none
            | some rest => some (r.1 :: rest.1, rest.2)
        | some l =>
            if l - (r.1.length : Int) ≤ 0 then some ([r.1], r.2.close)
            else
              match specLoopF fuel (some (l - (r.1.length : Int))) bs r.2 with
              | none => none
              | some rest => some (r.1 :: rest.1, rest.2)

/-- Modelled from the spec: the byte range iterator.  If seek is set and
non-zero, reposition the file to that offset and, if limit is also set,
reduce limit by seek; then run the read loop.  The fuel one past the file
length always suffices, since every yielded chunk consumes at least one
byte of the file. -/
def specIterRange (h : Handle) (seek limit : Option Int) (bs : Int) :
    Option (List (List Nat) × Handle) :=
  let start : Handle × Option Int :=
    match seek with
    | some s =>
        if s ≠ 0 then (h.seekTo s, limit.map (fun l => l - s))
        else (h, limit)
    | none => (h, limit)
  specLoopF (start.1.content.length + 1) start.2 bs start.1

/-- The path separator character of the posix path module. -/
def sepChar : Char := '/'

/-- Python path_info.lstrip(sep): remove all leading separator characters. -/
def lstripSep (p : PyStr) : PyStr := p.dropWhile (fun c => c = sepChar)

/-- Python posixpath.isabs: the path begins with a separator. -/
def isabs (p : PyStr) : Bool := p.head? = some sepChar

/-- Python posixpath.join for two components: an absolute second component
replaces the first; otherwise a separator is inserted unless the first
component is empty or already ends with one. -/
def pjoin (a b : PyStr) : PyStr :=
  if isabs b then b
  else if a = [] ∨ a.getLast? = some sepChar then a ++ b
  else a ++ sepChar :: b

/-- Python str.split(sep) on the separator character. -/
def splitSep : PyStr → List PyStr
  | [] => [[]]
  | c :: rest =>
      match splitSep rest with
      | [] => [[]]
      | s :: ss => if c = sepChar then [] :: s :: ss else (c :: s) :: ss

/-- The component filtering loop of posixpath.normpath: empty and dot
components are dropped; a dotdot component is kept when the path is
relative and the stack is empty or the stack already ends in dotdot,
otherwise it pops the stack when non-empty. -/
def normComps (isAbs : Bool) (comps : List PyStr) : List PyStr :=
  comps.foldl (fun acc comp =>
    if comp = [] ∨ comp = ['.'] then acc
    else if comp ≠ ['.', '.'] ∨ (¬ isAbs ∧ acc = []) ∨ acc.getLast? = some ['.', '.'] then
      acc ++ [comp]
    else if acc ≠ [] then acc.dropLast
    else acc) []

/-- Python sep.join(components). -/
def joinComps (comps : List PyStr) : PyStr := (comps.intersperse [sepChar]).flatten

/-- Python posixpath.normpath: collapse separators and dot components and
resolve dotdot components lexically; an absolute path keeps one leading
separator (two when the original path started with exactly two). -/
def normpath (p : PyStr) : PyStr :=
  if p = [] then ['.']
  else
    let isAbs := isabs p
    let twoSlashes := isAbs ∧ (p.drop 1).head? = some sepChar ∧
      ¬ (p.drop 2).head? = some sepChar
    let body := joinComps (normComps isAbs (splitSep p))
    let out := (if isAbs then (if twoSlashes then [sepChar, sepChar] else [sepChar]) else [])
      ++ body
    if out = [] then ['.'] else out

/-- Python posixpath.abspath with an explicit current working directory:
join the path onto cwd when it is relative, then normalize. -/
def abspath (cwd p : PyStr) : PyStr :=
  normpath (if isabs p then p else pjoin cwd p)

/-- Python s.startswith(pre) on the PyStr model. -/
def startswith (s pre : PyStr) : Bool := pre = s.take pre.length

/-- Result of os.stat: the fields used by FileApp (st_size and st_mtime). -/
structure StatInfo where
  size : Nat
  mtime : Nat
deriving DecidableEq

/-- A filesystem access performed by the responders, recorded as a trace. -/
inductive FsOp where
  | stat (path : PyStr)
  | openRead (path : PyStr)
deriving DecidableEq

/-- The filesystem seen by the responders: outcome of os.stat and of
open(path, rb) (errors carry the OS error text), and the os.path.isfile
and os.path.isdir predicates. -/
structure Fs where
  statResult : PyStr → Except PyStr StatInfo
  openResult : PyStr → Except PyStr Handle
  isfile : PyStr → Bool
  isdir : PyStr → Bool

/-- The response produced by FileApp: one of the webob error responses or
the success Response built from the open file and the stat data.  Header
negotiation (conditional_response_app) belongs to the host framework and
is out of scope. -/
inductive FResp where
  | methodNotAllowed (msg : PyStr)
  | notFound (comment : PyStr)
  | forbidden (msg : PyStr)
  | ok (file : Handle) (content_length : Nat) (last_modified : Nat)
deriving DecidableEq

/-- The apostrophe character, used by the Python percent-r formatting of a
path in a diagnostic message. -/
def apos : Char := Char.ofNat 39

/-- The 405 message: You cannot METHOD a file. -/
def methodMsg (method : PyStr) : PyStr :=
  pstr "You cannot " ++ method ++ pstr " a file"

/-- The 404 diagnostic comment: Cannot open PATH: ERROR, with the path
quoted by percent-r formatting. -/
def statFailMsg (filename e : PyStr) : PyStr :=
  pstr "Can" ++ [apos] ++ pstr "t open " ++ [apos] ++ filename ++ [apos] ++ pstr ": " ++ e

/-- The 403 message: You are not permitted to view this file (ERROR). -/
def openFailMsg (e : PyStr) : PyStr :=
  pstr "You are not permitted to view this file (" ++ e ++ pstr ")"

/-- FileApp.__call__: reject non GET/HEAD methods without touching the
filesystem; otherwise stat the file (failure gives 404 with a diagnostic
comment), open it (failure gives 403), and on success build the streaming
response from the open handle and the stat size and mtime.  The second
component records the filesystem accesses performed, in order. -/
def FileApp.call (fs : Fs) (filename : PyStr) (method : PyStr) :
    FResp × List FsOp :=
  if ¬ (method = pstr "GET" ∨ method = pstr "HEAD") then
    (.methodNotAllowed (methodMsg method), [])
  else
    match fs.statResult filename with
    | .error e => (.notFound (statFailMsg filename e), [.stat filename])
    | .ok st =>
        match fs.openResult filename with
        | .error e =>
            (.forbidden (openFailMsg e), [.stat filename, .openRead filename])
        | .ok file =>
            (.ok file st.size st.mtime, [.stat filename, .openRead filename])

/-- The response produced by DirectoryApp: a 404 with the candidate path as
diagnostic comment, a bare 403, or delegation to the FileApp built by
make_fileapp for the candidate path. -/
inductive DResp where
  | notFound (comment : PyStr)
  | forbidden
  | delegate (path : PyStr)
deriving DecidableEq

/-- DirectoryApp.__init__: the stored root is the absolute form of the
given path, suffixed with the separator when not already present.  The
constructor also asserts os.path.isdir on the result. -/
def dirRoot (cwd path : PyStr) : PyStr :=
  let p := abspath cwd path
  if p.getLast? = some sepChar then p else p ++ [sepChar]

/-- The candidate path computed by DirectoryApp.__call__:
os.path.abspath(os.path.join(self.path, req.path_info.lstrip(sep))). -/
def dirCandidate (cwd root pathInfo : PyStr) : PyStr :=
  abspath cwd (pjoin root (lstripSep pathInfo))

/-- DirectoryApp.__call__: compute the candidate path; if it is not an
existing regular file return 404 with the candidate as diagnostic, else if
it does not start with the stored root return 403, else delegate to the
FileApp made for it. -/
def DirectoryApp.call (fs : Fs) (cwd root pathInfo : PyStr) : DResp :=
  let p := dirCandidate cwd root pathInfo
  if ¬ fs.isfile p then .notFound p
  else if ¬ startswith p root then .forbidden
  else .delegate p

/-- A filesystem with no readable entries: every stat and open fails and
nothing is a file, with /data/ as the only directory. -/
def fsEmpty : Fs where
  statResult := fun _ => .error (pstr "ENOENT")
  openResult := fun _ => .error (pstr "ENOENT")
  isfile := fun _ => false
  isdir := fun p => decide (p = pstr "/data/")

/-- A filesystem where /secret.txt exists as a regular file, outside the
directory /data/. -/
def fsSecret : Fs where
  statResult := fun _ => .error (pstr "ENOENT")
  openResult := fun _ => .error (pstr "ENOENT")
  isfile := fun p => decide (p = pstr "/secret.txt")
  isdir := fun p => decide (p = pstr "/data/")

/-- A filesystem where /data/x exists as a regular file under the
directory /data/. -/
def fsUnderRoot : Fs where
  statResult := fun _ => .error (pstr "ENOENT")
  openResult := fun _ => .error (pstr "ENOENT")
  isfile := fun p => decide (p = pstr "/data/x")
  isdir := fun p => decide (p = pstr "/data/")

/-- A filesystem where /database/x exists as a regular file, inside a
sibling directory of /data whose name has /data as a string prefix. -/
def fsSibling : Fs where
  statResult := fun _ => .error (pstr "ENOENT")
  openResult := fun _ => .error (pstr "ENOENT")
  isfile := fun p => decide (p = pstr "/database/x")
  isdir := fun p => decide (p = pstr "/data/")

/-- A filesystem where stat succeeds but open is denied. -/
def fsNoPerm : Fs where
  statResult := fun _ => .ok ⟨5, 7⟩
  openResult := fun _ => .error (pstr "EACCES")
  isfile := fun _ => true
  isdir := fun _ => false

/-! Helper lemmas about the file handle and the read loop. -/

theorem read_snd_content (h : Handle) (n : Int) :
    (h.read n).2.content = h.content := rfl

theorem read_snd_closed (h : Handle) (n : Int) :
    (h.read n).2.closed = h.closed := rfl

theorem read_snd_pos (h : Handle) (n : Int) :
    (h.read n).2.pos = h.pos + (h.read n).1.length := rfl

theorem read_ne_nil_pos_lt (h : Handle) (n : Int)
    (hr : (h.read n).1 ≠ []) : h.pos < h.content.length := by
  by_contra hle
  apply hr
  show (if n < 0 then h.content.drop h.pos else (h.content.drop h.pos).take n.toNat) = []
  rw [List.drop_eq_nil_of_le (by omega)]
  simp

theorem read_len_le (h : Handle) (n : Int) (hn : 0 ≤ n) :
    ((h.read n).1.length : Int) ≤ n := by
  show ((if n < 0 then h.content.drop h.pos
         else (h.content.drop h.pos).take n.toNat).length : Int) ≤ n
  rw [if_neg (by omega)]
  have := List.length_take_le n.toNat (h.content.drop h.pos)
  omega

theorem read_at_end (h : Handle) (n : Int) (hp : h.content.length ≤ h.pos) :
    h.read n = ([], h) := by
  unfold Handle.read
  rw [List.drop_eq_nil_of_le hp]
  simp

theorem readLoop_empty (h : Handle) (limit : Option Int) (bs : Int)
    (hr : (h.read (readSize limit bs)).1 = []) :
    readLoop h limit bs = ([], (h.read (readSize limit bs)).2.close) := by
  rw [readLoop.eq_def]
  simp [hr]

theorem readLoop_stop (h : Handle) (l bs : Int)
    (hr : (h.read (readSize (some l) bs)).1 ≠ [])
    (hle : l - ((h.read (readSize (some l) bs)).1.length : Int) ≤ 0) :
    readLoop h (some l) bs =
      ([(h.read (readSize (some l) bs)).1],
       (h.read (readSize (some l) bs)).2.close) := by
  rw [readLoop.eq_def]
  simp [hr, hle]

theorem readLoop_cons_some (h : Handle) (l bs : Int)
    (hr : (h.read (readSize (some l) bs)).1 ≠ [])
    (hgt : ¬ l - ((h.read (readSize (some l) bs)).1.length : Int) ≤ 0) :
    readLoop h (some l) bs =
      ((h.read (readSize (some l) bs)).1 ::
        (readLoop (h.read (readSize (some l) bs)).2
          (some (l - ((h.read (readSize (some l) bs)).1.length : Int))) bs).1,
       (readLoop (h.read (readSize (some l) bs)).2
          (some (l - ((h.read (readSize (some l) bs)).1.length : Int))) bs).2) := by
  rw [readLoop.eq_def]
  simp [hr, hgt]

theorem readLoop_cons_none (h : Handle) (bs : Int)
    (hr : (h.read (readSize none bs)).1 ≠ []) :
    readLoop h none bs =
      ((h.read (readSize none bs)).1 ::
        (readLoop (h.read (readSize none bs)).2 none bs).1,
       (readLoop (h.read (readSize none bs)).2 none bs).2) := by
  rw [readLoop.eq_def]
  simp [hr]

theorem measure_decrease (h : Handle) (n : Int) (fuel : Nat)
    (hr : (h.read n).1 ≠ [])
    (hf : h.content.length - h.pos < fuel + 1) :
    (h.read n).2.content.length - (h.read n).2.pos < fuel := by
  have h1 := read_ne_nil_pos_lt h n hr
  have h2 : 0 < (h.read n).1.length := List.length_pos.mpr hr
  rw [read_snd_content, read_snd_pos]
  omega

theorem specLoopF_eq (fuel : Nat) :
    ∀ (h : Handle) (limit : Option Int) (bs : Int),
      h.content.length - h.pos < fuel →
      specLoopF fuel limit bs h = some (readLoop h limit bs) := by
  induction fuel with
  | zero => intro h limit bs hf; omega
  | succ fuel ih =>
      intro h limit bs hf
      by_cases hr : (h.read (readSize limit bs)).1 = []
      · rw [readLoop_empty h limit bs hr]
        simp [specLoopF, hr]
      · have hlt := measure_decrease h (readSize limit bs) fuel hr hf
        match limit with
        | none =>
            rw [readLoop_cons_none h bs hr]
            simp only [specLoopF]
            rw [ih _ none bs hlt]
            simp [hr]
        | some l =>
            by_cases hle : l - ((h.read (readSize (some l) bs)).1.length : Int) ≤ 0
            · rw [readLoop_stop h l bs hr hle]
              simp [specLoopF, hr, hle]
            · rw [readLoop_cons_some h l bs hr hle]
              simp only [specLoopF, hr, hle]
              rw [ih _ (some (l - ((h.read (readSize (some l) bs)).1.length : Int))) bs hlt]
              simp [hr, hle]

theorem readLoop_of_spec {fuel : Nat} {h : Handle} {limit : Option Int} {bs : Int}
    {r : List (List Nat) × Handle}
    (hf : h.content.length - h.pos < fuel)
    (he : specLoopF fuel limit bs h = some r) :
    readLoop h limit bs = r := by
  have := specLoopF_eq fuel h limit bs hf
  rw [he] at this
  exact (Option.some.inj this).symm

theorem readLoop_at_end (h : Handle) (limit : Option Int) (bs : Int)
    (hp : h.content.length ≤ h.pos) : readLoop h limit bs = ([], h.close) := by
  have h0 := read_at_end h (readSize limit bs) hp
  rw [readLoop_empty h limit bs (by rw [h0]), h0]

theorem readLoop_flatten_le (bs : Int) (hbs : 0 ≤ bs) :
    ∀ (fuel : Nat) (h : Handle) (l : Int), 0 ≤ l →
      h.content.length - h.pos < fuel →
      ((readLoop h (some l) bs).1.flatten.length : Int) ≤ l := by
  intro fuel
  induction fuel with
  | zero => intro h l hl hf; omega
  | succ fuel ih =>
      intro h l hl hf
      by_cases hr : (h.read (readSize (some l) bs)).1 = []
      · rw [readLoop_empty h (some l) bs hr]
        simpa using hl
      · have hn : (0 : Int) ≤ readSize (some l) bs := by
          simp only [readSize]
          omega
        have hlen : ((h.read (readSize (some l) bs)).1.length : Int) ≤ l := by
          have h1 := read_len_le h (readSize (some l) bs) hn
          have h2 : readSize (some l) bs ≤ l := by
            simp only [readSize]
            omega
          omega
        by_cases hle : l - ((h.read (readSize (some l) bs)).1.length : Int) ≤ 0
        · rw [readLoop_stop h l bs hr hle]
          simpa using hlen
        · rw [readLoop_cons_some h l bs hr hle]
          have hrest := ih (h.read (readSize (some l) bs)).2
            (l - ((h.read (readSize (some l) bs)).1.length : Int))
            (by omega) (measure_decrease h (readSize (some l) bs) fuel hr hf)
          simp only [List.flatten_cons, List.length_append]
          push_cast
          omega

/-! Claim theorems. -/

/-- C3: the byte range iterator follows exactly the algorithm of the spec:
the seek adjustment (reposition and reduce a set limit by a truthy seek)
followed by the read loop that reads min(block_size, limit) bytes when
limit is set and block_size otherwise, stops on an empty read, yields the
chunk, decrements a bounded limit by the chunk length and stops once the
limit is at most zero.  The spec modelled iterator returns some result
(its fuel always suffices) and that result is the source iterator. -/
theorem app_iter_range_follows_spec_algorithm (h : Handle) (seek limit : Option Int)
    (bs : Int) :
    specIterRange h seek limit bs = some (app_iter_range h seek limit bs) := by
  have key : ∀ (h1 : Handle) (l1 : Option Int),
      specLoopF (h1.content.length + 1) l1 bs h1 = some (readLoop h1 l1 bs) :=
    fun h1 l1 => specLoopF_eq _ h1 l1 bs (by omega)
  cases seek with
  | none => simpa [specIterRange, app_iter_range] using key h limit
  | some s =>
      by_cases hs : s = 0
      · subst hs
        simpa [specIterRange, app_iter_range] using key h limit
      · cases limit with
        | none =>
            simpa [specIterRange, app_iter_range, hs, Handle.seekTo]
              using key (h.seekTo s) none
        | some l =>
            simpa [specIterRange, app_iter_range, hs, Handle.seekTo]
              using key (h.seekTo s) (some (l - s))

/-- C7: passing seek as 0 yields exactly the same chunk sequence and the
same final handle state as omitting seek, all other parameters equal,
because 0 is falsy for the seek truthiness test. -/
theorem seek_zero_same_as_omitted (h : Handle) (limit : Option Int) (bs : Int) :
    app_iter_range h (some 0) limit bs = app_iter_range h none limit bs := by
  simp [app_iter_range]

/-- C2 counterexample: for the 30 byte file 0,...,29 the iteration with
seek=10, limit=20, block_size=5 yields 2 chunks, not 4, because the source
reduces the limit by the seek offset before the read loop (the limit is an
end offset, not a byte count past the seek position). -/
theorem range_iteration_chunk_count_counterexample :
    (app_iter_range ⟨List.range 30, 0, false⟩ (some 10) (some 20) 5).1.length ≠ 4 := by
  have happ : app_iter_range ⟨List.range 30, 0, false⟩ (some 10) (some 20) 5
      = readLoop ⟨List.range 30, 10, false⟩ (some 10) 5 := by
    simp [app_iter_range, Handle.seekTo]
  have hr : readLoop ⟨List.range 30, 10, false⟩ (some 10) 5
      = ([[10, 11, 12, 13, 14], [15, 16, 17, 18, 19]], ⟨List.range 30, 20, true⟩) :=
    @readLoop_of_spec 31 _ _ _ _ (by decide) (by decide)
  rw [happ, hr]
  decide

/-- C2 (amended): for a file of at least 30 bytes, iterating with seek=10,
limit=20, block_size=5 yields exactly 2 chunks of 5 bytes each, whose
concatenation equals bytes 10 to 19 of the file (the adjusted remaining
budget is limit minus seek), and the handle is closed with its position at
byte 20 when iteration finishes. -/
theorem range_iteration_seek10_limit20 (c : List Nat) (hc : 30 ≤ c.length) :
    app_iter_range ⟨c, 0, false⟩ (some 10) (some 20) 5
      = ([(c.drop 10).take 5, (c.drop 15).take 5], ⟨c, 20, true⟩)
    ∧ (app_iter_range ⟨c, 0, false⟩ (some 10) (some 20) 5).1.map List.length = [5, 5]
    ∧ (app_iter_range ⟨c, 0, false⟩ (some 10) (some 20) 5).1.flatten
        = (c.drop 10).take 10 := by
  have hlen1 : ((c.drop 10).take 5).length = 5 := by
    rw [List.length_take, List.length_drop]
    omega
  have hlen2 : ((c.drop 15).take 5).length = 5 := by
    rw [List.length_take, List.length_drop]
    omega
  have hread1 : Handle.read ⟨c, 10, false⟩ (readSize (some 10) 5)
      = ((c.drop 10).take 5, ⟨c, 15, false⟩) := by
    have hrs : readSize (some 10) 5 = 5 := by decide
    rw [hrs]
    simp [Handle.read, hlen1]
  have hread2 : Handle.read ⟨c, 15, false⟩ (readSize (some 5) 5)
      = ((c.drop 15).take 5, ⟨c, 20, false⟩) := by
    have hrs : readSize (some 5) 5 = 5 := by decide
    rw [hrs]
    simp [Handle.read, hlen2]
  have hne1 : (Handle.read ⟨c, 10, false⟩ (readSize (some 10) 5)).1 ≠ [] := by
    rw [hread1]
    show (c.drop 10).take 5 ≠ []
    intro h0
    rw [h0] at hlen1
    simp at hlen1
  have hne2 : (Handle.read ⟨c, 15, false⟩ (readSize (some 5) 5)).1 ≠ [] := by
    rw [hread2]
    show (c.drop 15).take 5 ≠ []
    intro h0
    rw [h0] at hlen2
    simp at hlen2
  have step2 : readLoop ⟨c, 15, false⟩ (some 5) 5
      = ([(c.drop 15).take 5], ⟨c, 20, true⟩) := by
    have := readLoop_stop ⟨c, 15, false⟩ 5 5 hne2 (by rw [hread2, hlen2]; norm_num)
    rw [hread2] at this
    simpa [Handle.close] using this
  have step1 : readLoop ⟨c, 10, false⟩ (some 10) 5
      = ([(c.drop 10).take 5, (c.drop 15).take 5], ⟨c, 20, true⟩) := by
    have := readLoop_cons_some ⟨c, 10, false⟩ 10 5 hne1 (by rw [hread1, hlen1]; norm_num)
    rw [hread1] at this
    rw [this]
    simp only [hlen1]
    norm_num [step2]
  have happ : app_iter_range ⟨c, 0, false⟩ (some 10) (some 20) 5
      = readLoop ⟨c, 10, false⟩ (some 10) 5 := by
    simp [app_iter_range, Handle.seekTo]
  rw [happ, step1]
  refine ⟨rfl, by simp [hlen1, hlen2], ?_⟩
  show (c.drop 10).take 5 ++ ((c.drop 15).take 5 ++ []) = (c.drop 10).take 10
  rw [List.append_nil]
  have hdd : (c.drop 10).drop 5 = c.drop 15 := by
    rw [List.drop_drop]
  rw [← hdd, ← List.take_add]

/-- Witness for the amended C2 theorem at the concrete 30 byte file. -/
theorem range_iteration_seek10_limit20_witness :
    app_iter_range ⟨List.range 30, 0, false⟩ (some 10) (some 20) 5
      = ([((List.range 30).drop 10).take 5, ((List.range 30).drop 15).take 5],
         ⟨List.range 30, 20, true⟩) :=
  (range_iteration_seek10_limit20 (List.range 30) (by decide)).1

/-- C8: a zero limit with no seek (and a non-negative block size) yields no
chunks and leaves the handle closed and otherwise unchanged; a seek at or
past end of file yields no chunks, for any limit, and the handle is closed
when the sequence ends. -/
theorem zero_limit_and_seek_past_eof (h : Handle) (bs : Int) :
    (0 ≤ bs → app_iter_range h none (some 0) bs = ([], h.close))
    ∧ (∀ (s : Int) (limit : Option Int), (h.content.length : Int) ≤ s →
        (app_iter_range h (some s) limit bs).1 = []
        ∧ (app_iter_range h (some s) limit bs).2.closed = true) := by
  constructor
  · intro hbs
    have happ : app_iter_range h none (some 0) bs = readLoop h (some 0) bs := rfl
    have hrs : readSize (some 0) bs = 0 := by
      simp only [readSize]
      omega
    have hread : h.read (readSize (some 0) bs) = ([], h) := by
      rw [hrs]
      simp [Handle.read]
    rw [happ, readLoop_empty h (some 0) bs (by rw [hread]), hread]
  · intro s limit hs
    by_cases hzero : s = 0
    · subst hzero
      have hlen : h.content.length ≤ h.pos := by omega
      have happ : app_iter_range h (some 0) limit bs = readLoop h limit bs := by
        simp [app_iter_range]
      rw [happ, readLoop_at_end h limit bs hlen]
      exact ⟨rfl, rfl⟩
    · have happ : app_iter_range h (some s) limit bs
          = readLoop (h.seekTo s)
              (match limit with
               | some l => some (l - s)
               | none => none) bs := by
        simp [app_iter_range, hzero]
      have hlen : (h.seekTo s).content.length ≤ (h.seekTo s).pos := by
        show h.content.length ≤ s.toNat
        omega
      rw [happ, readLoop_at_end _ _ bs hlen]
      exact ⟨rfl, rfl⟩

/-- Witness for the C8 theorem: a 7 byte file with limit 0, and a seek to
offset 9 past its end. -/
theorem zero_limit_and_seek_past_eof_witness :
    app_iter_range ⟨List.range 7, 0, false⟩ none (some 0) 5
      = ([], Handle.close ⟨List.range 7, 0, false⟩)
    ∧ (app_iter_range ⟨List.range 7, 0, false⟩ (some 9) (some 100) 5).1 = []
    ∧ (app_iter_range ⟨List.range 7, 0, false⟩ (some 9) (some 100) 5).2.closed = true :=
  ⟨(zero_limit_and_seek_past_eof ⟨List.range 7, 0, false⟩ 5).1 (by decide),
   (zero_limit_and_seek_past_eof ⟨List.range 7, 0, false⟩ 5).2 9 (some 100) (by decide)⟩

/-- C9: when seek exceeds limit the adjusted budget is negative, the first
read request is for a negative size and therefore reads the whole remainder
of the file, so bytes are yielded although the stated budget is exhausted:
for the 20 byte file 0,...,19 with seek=10, limit=5, block_size=4 the
iterator yields 10 bytes.  The bound, total bytes yielded at most
limit minus seek, does hold under the precondition seek at most limit
(with a non-negative seek and block size). -/
theorem negative_budget_overshoot_and_bound :
    (app_iter_range ⟨List.range 20, 0, false⟩ (some 10) (some 5) 4).1.flatten.length = 10
    ∧ (∀ (h : Handle) (s l bs : Int), 0 ≤ s → s ≤ l → 0 ≤ bs →
        ((app_iter_range h (some s) (some l) bs).1.flatten.length : Int) ≤ l - s) := by
  constructor
  · have happ : app_iter_range ⟨List.range 20, 0, false⟩ (some 10) (some 5) 4
        = readLoop ⟨List.range 20, 10, false⟩ (some (-5)) 4 := by
      simp [app_iter_range, Handle.seekTo]
    have hr : readLoop ⟨List.range 20, 10, false⟩ (some (-5)) 4
        = ([[10, 11, 12, 13, 14, 15, 16, 17, 18, 19]], ⟨List.range 20, 20, true⟩) :=
      @readLoop_of_spec 11 _ _ _ _ (by decide) (by decide)
    rw [happ, hr]
    decide
  · intro h s l bs hs hsl hbs
    by_cases hzero : s = 0
    · subst hzero
      have happ : app_iter_range h (some 0) (some l) bs = readLoop h (some l) bs := by
        simp [app_iter_range]
      rw [happ]
      have := readLoop_flatten_le bs hbs (h.content.length - h.pos + 1) h l
        (by omega) (by omega)
      omega
    · have happ : app_iter_range h (some s) (some l) bs
          = readLoop (h.seekTo s) (some (l - s)) bs := by
        simp [app_iter_range, hzero]
      rw [happ]
      exact readLoop_flatten_le bs hbs
        ((h.seekTo s).content.length - (h.seekTo s).pos + 1) (h.seekTo s) (l - s)
        (by omega) (by omega)

/-- Witness for the C9 theorem at a concrete in-bounds range request. -/
theorem negative_budget_overshoot_and_bound_witness :
    ((app_iter_range ⟨List.range 9, 0, false⟩ (some 2) (some 6) 3).1.flatten.length : Int)
      ≤ 6 - 2 :=
  negative_budget_overshoot_and_bound.2 ⟨List.range 9, 0, false⟩ 2 6 3
    (by decide) (by decide) (by decide)

/-- C5: for a request method that is neither GET nor HEAD, the file
responder returns Method Not Allowed and the filesystem access trace is
empty, for every filesystem — in particular for one where the path does
not exist, so the answer is 405 and never 404. -/
theorem non_get_head_is_405_without_fs_access (fs : Fs) (filename method : PyStr)
    (hm : ¬ (method = pstr "GET" ∨ method = pstr "HEAD")) :
    FileApp.call fs filename method = (.methodNotAllowed (methodMsg method), []) := by
  simp only [FileApp.call, if_pos hm]

/-- Witness for the C5 theorem: a POST request against a filesystem where
every stat fails (the file does not exist) still gets 405. -/
theorem non_get_head_is_405_without_fs_access_witness :
    FileApp.call fsEmpty (pstr "/no/such/file") (pstr "POST")
      = (.methodNotAllowed (methodMsg (pstr "POST")), []) :=
  non_get_head_is_405_without_fs_access fsEmpty (pstr "/no/such/file") (pstr "POST")
    (by decide)

/-- C6: for a GET or HEAD request, a failed stat yields Not Found with a
diagnostic comment containing the path and the OS error text, and a
successful stat followed by a failed open yields Forbidden with a message
containing the OS error text; every filesystem outcome maps to a response,
so no error propagates. -/
theorem fs_errors_translated_to_responses (fs : Fs) (filename method e : PyStr)
    (st : StatInfo) (hm : method = pstr "GET" ∨ method = pstr "HEAD") :
    (fs.statResult filename = .error e →
      ∃ c, (FileApp.call fs filename method).1 = .notFound c
        ∧ (∃ u v, c = u ++ filename ++ v) ∧ (∃ u v, c = u ++ e ++ v))
    ∧ (fs.statResult filename = .ok st → fs.openResult filename = .error e →
      ∃ m, (FileApp.call fs filename method).1 = .forbidden m
        ∧ (∃ u v, m = u ++ e ++ v)) := by
  constructor
  · intro he
    refine ⟨statFailMsg filename e, ?_, ?_, ?_⟩
    · simp only [FileApp.call, if_neg (not_not_intro hm), he]
    · exact ⟨pstr "Can" ++ [apos] ++ pstr "t open " ++ [apos],
        [apos] ++ pstr ": " ++ e, by simp [statFailMsg]⟩
    · exact ⟨pstr "Can" ++ [apos] ++ pstr "t open " ++ [apos] ++ filename
        ++ [apos] ++ pstr ": ", [], by simp [statFailMsg]⟩
  · intro hst hop
    refine ⟨openFailMsg e, ?_, ?_⟩
    · simp only [FileApp.call, if_neg (not_not_intro hm), hst, hop]
    · exact ⟨pstr "You are not permitted to view this file (", pstr ")",
        by simp [openFailMsg]⟩

/-- Witness for the C6 theorem: a missing file gives 404 with the path and
error in the comment; a stat success with a denied open gives 403 with the
error in the message. -/
theorem fs_errors_translated_to_responses_witness :
    (∃ c, (FileApp.call fsEmpty (pstr "/a/b") (pstr "GET")).1 = .notFound c
      ∧ (∃ u v, c = u ++ pstr "/a/b" ++ v) ∧ (∃ u v, c = u ++ pstr "ENOENT" ++ v))
    ∧ (∃ m, (FileApp.call fsNoPerm (pstr "/a/b") (pstr "GET")).1 = .forbidden m
      ∧ (∃ u v, m = u ++ pstr "EACCES" ++ v)) :=
  ⟨(fs_errors_translated_to_responses fsEmpty (pstr "/a/b") (pstr "GET")
      (pstr "ENOENT") ⟨0, 0⟩ (Or.inl rfl)).1 rfl,
   (fs_errors_translated_to_responses fsNoPerm (pstr "/a/b") (pstr "GET")
      (pstr "EACCES") ⟨5, 7⟩ (Or.inl rfl)).2 rfl rfl⟩

/-- C1 counterexample: with root /data and no file at the resolved path,
the request path ../secret.txt resolves to /secret.txt outside the root,
yet the response is Not Found, not Forbidden — the existence test runs
before the containment test, so the claim fails for non-existent targets. -/
theorem outside_root_counterexample :
    DirectoryApp.call fsEmpty (pstr "/") (dirRoot (pstr "/") (pstr "/data"))
      (pstr "../secret.txt") = DResp.notFound (pstr "/secret.txt")
    ∧ DirectoryApp.call fsEmpty (pstr "/") (dirRoot (pstr "/") (pstr "/data"))
      (pstr "../secret.txt") ≠ DResp.forbidden := by
  decide

/-- C1 (amended): for a request whose candidate path fails the containment
check against the root, the response is Forbidden when a regular file
exists at the candidate and Not Found (with the candidate as diagnostic)
when it does not. -/
theorem outside_root_forbidden_or_not_found (fs : Fs) (cwd root pathInfo : PyStr)
    (hout : startswith (dirCandidate cwd root pathInfo) root = false) :
    (fs.isfile (dirCandidate cwd root pathInfo) = true →
      DirectoryApp.call fs cwd root pathInfo = .forbidden)
    ∧ (fs.isfile (dirCandidate cwd root pathInfo) = false →
      DirectoryApp.call fs cwd root pathInfo
        = .notFound (dirCandidate cwd root pathInfo)) := by
  constructor <;> intro hf <;> simp [DirectoryApp.call, hf, hout]

/-- Witness for the amended C1 theorem: when /secret.txt does exist, the
same traversal request is answered with Forbidden. -/
theorem outside_root_forbidden_or_not_found_witness :
    DirectoryApp.call fsSecret (pstr "/") (dirRoot (pstr "/") (pstr "/data"))
      (pstr "../secret.txt") = .forbidden :=
  (outside_root_forbidden_or_not_found fsSecret (pstr "/")
    (dirRoot (pstr "/") (pstr "/data")) (pstr "../secret.txt") (by decide)).1 (by decide)

/-- Decomposition of a true startswith test into an explicit append: when
s starts with pre and differs from it, s is pre followed by a non-empty
tail. -/
theorem startswith_decomp (s pre : PyStr) (hsw : startswith s pre = true)
    (hne : s ≠ pre) : ∃ t, t ≠ [] ∧ s = pre ++ t := by
  have htake : pre = s.take pre.length := by simpa [startswith] using hsw
  refine ⟨s.drop pre.length, ?_, ?_⟩
  · intro h0
    apply hne
    conv_lhs => rw [← List.take_append_drop pre.length s]
    rw [h0, List.append_nil, ← htake]
  · conv_lhs => rw [← List.take_append_drop pre.length s]
    rw [← htake]

/-- C4: whenever the directory responder delegates to the file responder
factory, the stored root (which carries its trailing separator) is a proper
string prefix of the delegated candidate path, and the candidate is never
the root itself.  The hypotheses state the constructor assertion (the root
is a directory) and that no path is both a directory and a regular file. -/
theorem delegation_candidate_proper_descendant (fs : Fs) (cwd rootArg pathInfo p : PyStr)
    (hdir : fs.isdir (dirRoot cwd rootArg) = true)
    (hdisj : ∀ q, fs.isdir q = true → fs.isfile q = false)
    (hdel : DirectoryApp.call fs cwd (dirRoot cwd rootArg) pathInfo = .delegate p) :
    (∃ t, t ≠ [] ∧ p = dirRoot cwd rootArg ++ t) ∧ p ≠ dirRoot cwd rootArg := by
  simp only [DirectoryApp.call] at hdel
  by_cases hf : fs.isfile (dirCandidate cwd (dirRoot cwd rootArg) pathInfo)
  · rw [if_neg (by simp [hf])] at hdel
    by_cases hsw : startswith (dirCandidate cwd (dirRoot cwd rootArg) pathInfo)
        (dirRoot cwd rootArg)
    · rw [if_neg (by simp [hsw])] at hdel
      have hp : dirCandidate cwd (dirRoot cwd rootArg) pathInfo = p :=
        (DResp.delegate.injEq _ _).mp hdel
      rw [hp] at hf hsw
      have hne : p ≠ dirRoot cwd rootArg := by
        intro heq
        have h1 := hdisj (dirRoot cwd rootArg) hdir
        rw [heq, h1] at hf
        exact Bool.false_ne_true hf
      exact ⟨startswith_decomp p (dirRoot cwd rootArg) hsw hne, hne⟩
    · rw [if_pos (by simp [hsw])] at hdel
      exact absurd hdel (by simp)
  · rw [if_pos (by simp [hf])] at hdel
    exact absurd hdel (by simp)

/-- Witness for the C4 theorem: with root /data and the file /data/x, the
request x delegates to /data/x, which properly extends the root /data/. -/
theorem delegation_candidate_proper_descendant_witness :
    (∃ t, t ≠ [] ∧ pstr "/data/x" = dirRoot (pstr "/") (pstr "/data") ++ t)
    ∧ pstr "/data/x" ≠ dirRoot (pstr "/") (pstr "/data") :=
  delegation_candidate_proper_descendant fsUnderRoot (pstr "/") (pstr "/data")
    (pstr "x") (pstr "/data/x")
    (by decide)
    (fun q hq => by
      have : q = pstr "/data/" := by simpa [fsUnderRoot] using hq
      subst this
      decide)
    (by decide)

/-- C10: because the stored root /data/ keeps its trailing separator, the
candidate /database/x inside a sibling directory whose name has /data as a
string prefix passes the bare name test but fails the containment check:
the request is never delegated, and is answered Forbidden whenever the
containment check is actually reached (the candidate exists as a file). -/
theorem sibling_name_collision_rejected (fs : Fs) :
    startswith (pstr "/database/x") (pstr "/data") = true
    ∧ startswith (pstr "/database/x") (dirRoot (pstr "/") (pstr "/data")) = false
    ∧ (∀ q, DirectoryApp.call fs (pstr "/") (dirRoot (pstr "/") (pstr "/data"))
        (pstr "../database/x") ≠ .delegate q)
    ∧ (fs.isfile (pstr "/database/x") = true →
        DirectoryApp.call fs (pstr "/") (dirRoot (pstr "/") (pstr "/data"))
          (pstr "../database/x") = .forbidden) := by
  have hc : dirCandidate (pstr "/") (dirRoot (pstr "/") (pstr "/data"))
      (pstr "../database/x") = pstr "/database/x" := by decide
  have hsw : startswith (pstr "/database/x") (dirRoot (pstr "/") (pstr "/data"))
      = false := by decide
  refine ⟨by decide, by decide, ?_, ?_⟩
  · intro q
    by_cases hf : fs.isfile (pstr "/database/x")
    · simp [DirectoryApp.call, hc, hf, hsw]
    · simp [DirectoryApp.call, hc, hf]
  · intro hf
    simp [DirectoryApp.call, hc, hf, hsw]

/-- Witness for the C10 theorem: with the sibling file /database/x present,
the traversal request is answered Forbidden. -/
theorem sibling_name_collision_rejected_witness :
    DirectoryApp.call fsSibling (pstr "/") (dirRoot (pstr "/") (pstr "/data"))
      (pstr "../database/x") = .forbidden :=
  (sibling_name_collision_rejected fsSibling).2.2.2 (by decide)
